import Mathlib

/-!
Verification of the claude-wt worktree/branch session lifecycle manager
(`src/claude_wt/cli.py`, with `src/main.py` as an earlier draft of the same
logic).  Python strings are embedded as `List Char` (`Str`): every string
operation used by the code (slicing, `startswith`, `split`, `strip`,
`replace`, lexicographic `<=`) is reproduced on `List Char` with Python's
semantics, so that all definitions are executable and concrete runs can be
settled by `decide`.  Stateful behaviour (git branches, worktree
directories, the porcelain registry) is embedded as explicit state records,
and each subprocess invocation becomes a pure state transition; per the
spec the VCS itself is an external collaborator, so its operations
(`worktree remove`, `branch -D`, ...) are given their documented effects.
-/

/-- Python strings, embedded as lists of characters. -/
abbrev Str : Type := List Char

/-- Python's `<=` on strings: lexicographic comparison by code point. -/
def strLe : Str → Str → Bool
  | [], _ => true
  | _ :: _, [] => false
  | a :: as, b :: bs => if a < b then true else if a = b then strLe as bs else false

/-- Python's `text.split("\n")`: split at every newline, keeping empty pieces
(`"".split("\n") == [""]`). -/
def splitNl : Str → List Str
  | [] => [[]]
  | c :: rest =>
    if c = '\n' then [] :: splitNl rest
    else
      match splitNl rest with
      | l :: ls => (c :: l) :: ls
      | [] => [[c]]

/-- The ASCII whitespace characters removed by Python's `str.strip()`. -/
def pyIsSpace (c : Char) : Bool :=
  c = ' ' || c = '\t' || c = '\n' || c = '\r' || c = '\x0b' || c = '\x0c'

/-- Python's `line.strip()`: drop whitespace from both ends. -/
def pyStrip (s : Str) : Str :=
  ((s.dropWhile pyIsSpace).reverse.dropWhile pyIsSpace).reverse

/-- Python's `s.replace(pat, "")` for a nonempty `pat`: remove every
occurrence, scanning left to right, non-overlapping.  Fuel-indexed so the
definition is structural (the fuel `s.length` always suffices, since each
step consumes at least one character). -/
def pyReplaceAux (pat : Str) : Nat → Str → Str
  | 0, s => s
  | _ + 1, [] => []
  | fuel + 1, c :: rest =>
    if pat.isPrefixOf (c :: rest) then pyReplaceAux pat fuel (rest.drop (pat.length - 1))
    else c :: pyReplaceAux pat fuel rest

/-- Python's `s.replace(pat, "")` (used by `list` to recover the session
suffix from a branch name, `cli.py` line 577). -/
def pyReplace (s pat : Str) : Str :=
  pyReplaceAux pat s.length s

/-- `pat` occurs as a contiguous substring of `s` (scanning definition,
matching the occurrences `pyReplaceAux` removes). -/
def hasOccur (pat : Str) : Str → Bool
  | [] => false
  | c :: rest => pat.isPrefixOf (c :: rest) || hasOccur pat rest

/-- The fixed session marker: every session branch is `"claude-wt-" ++ identifier`
(`cli.py` lines 197, 288, 377, 443, 560). -/
def claudeMarker : Str := "claude-wt-".data

/-- `branch_name = f"claude-wt-{suffix}"` (`cli.py` line 197). -/
def toBranchName (ident : Str) : Str := claudeMarker ++ ident

/-- `wt_path = repo_root / ".claude-wt" / "worktrees" / branch_name`
(`cli.py` line 220). -/
def wtPathFor (root full : Str) : Str :=
  root ++ "/.claude-wt/worktrees/".data ++ full

/-!
## WorktreeRegistryParser

`resume`, `clean --all` and `list` each parse the output of
`git worktree list --porcelain` (split on newlines) with the same loop
(`cli.py` lines 296-310, 427-438, 546-556): a line starting with
`"worktree "` flushes the pending record (if the dict is non-empty) and
starts a new one from `line[9:]`; a line starting with `"branch "` sets the
pending record's branch field to `line[7:]` (note: only the 7-character
`"branch "` marker is removed — nothing else is stripped from the ref
path); end of input flushes the pending record.
-/

/-- One parsed registry record: the Python dict with optional `"path"` and
`"branch"` keys. -/
structure WtRecord where
  path : Option Str := none
  branch : Option Str := none
deriving DecidableEq, Repr

/-- Python dict truthiness `if current_wt:` — the dict has at least one key. -/
def WtRecord.isNonempty (r : WtRecord) : Bool :=
  r.path.isSome || r.branch.isSome

/-- The registry-parsing loop of `list` (`cli.py` lines 546-556), with the
pending record as the second argument. -/
def parseLines : List Str → WtRecord → List WtRecord
  | [], cur => if cur.isNonempty then [cur] else []
  | line :: rest, cur =>
    if "worktree ".data.isPrefixOf line then
      (if cur.isNonempty then [cur] else []) ++ parseLines rest ⟨some (line.drop 9), none⟩
    else if "branch ".data.isPrefixOf line then
      parseLines rest { cur with branch := some (line.drop 7) }
    else
      parseLines rest cur

/-- Parse a registry (given as the list of lines of the porcelain output,
i.e. `result.stdout.split("\n")`). -/
def parseWorktrees (lines : List Str) : List WtRecord :=
  parseLines lines ⟨none, none⟩

/-- A registry text is well-started when no `"branch "` attribute line
appears before the first `"worktree "` line (true of every actual porcelain
output, whose records all begin with a `worktree` line). -/
def goodStart : List Str → Bool
  | [] => true
  | l :: rest =>
    if "worktree ".data.isPrefixOf l then true
    else if "branch ".data.isPrefixOf l then false
    else goodStart rest

/-!
## resume (`cli.py` lines 267-334)

`resume` rebuilds `full_branch_name = "claude-wt-" + branch_name`, scans the
registry for the first record whose branch field equals it (breaking out of
the loop at the first match, and checking the final pending record after
the loop), and fails with exit 1 — launching no agent — when no record
matched or the matched record's path does not exist on disk.  A `none`
result below is exactly the exit-1/no-launch outcome.
-/

/-- The scanning loop of `resume` (`cli.py` lines 297-310): flush-points and
match test are as in `parseLines`, but the scan stops at the first record
whose branch equals `full`. -/
def resumeFindAux (full : Str) : List Str → WtRecord → Option WtRecord
  | [], cur => if cur.isNonempty = true ∧ cur.branch = some full then some cur else none
  | line :: rest, cur =>
    if "worktree ".data.isPrefixOf line then
      if cur.isNonempty = true ∧ cur.branch = some full then some cur
      else resumeFindAux full rest ⟨some (line.drop 9), none⟩
    else if "branch ".data.isPrefixOf line then
      resumeFindAux full rest { cur with branch := some (line.drop 7) }
    else
      resumeFindAux full rest cur

/-- `resume` (`cli.py` lines 288-316): `ex` is the filesystem existence
check `Path(...).exists()`.  Returns the worktree path the agent would be
launched in, or `none` for the exit-1 paths (record not found, record
lacking a path key, or path missing on disk). -/
def resumeCmd (lines : List Str) (ident : Str) (ex : Str → Bool) : Option Str :=
  match resumeFindAux (toBranchName ident) lines ⟨none, none⟩ with
  | none => none
  | some r =>
    match r.path with
    | none => none
    | some p => if ex p then some p else none

/-!
## list (`cli.py` lines 524-592)

`list` parses the registry, keeps the records whose branch field starts
with `"claude-wt-"` (detached records have no branch key and
`wt.get("branch", "")` yields `""`), sorts them by branch field
(Python `sorted` with a string key), and renders one row per record whose
status is a fresh `Path(wt_path).exists()` check and whose session column is
`branch_name.replace("claude-wt-", "")`.
-/

/-- The sort key comparison of `sorted(claude_worktrees, key=...)`
(`cli.py` line 575). -/
def sessionRel : WtRecord → WtRecord → Prop :=
  fun a b => strLe (a.branch.getD []) (b.branch.getD []) = true

instance : DecidableRel sessionRel := fun a b => by
  unfold sessionRel
  infer_instance

/-- The filtered, sorted session records of `list` (`cli.py` lines 559-575). -/
def listSessions (lines : List Str) : List WtRecord :=
  List.insertionSort sessionRel
    ((parseWorktrees lines).filter (fun r => claudeMarker.isPrefixOf (r.branch.getD [])))

/-- The rendered table rows (status, session suffix, path) of `list`
(`cli.py` lines 575-583). -/
def listRows (lines : List Str) (ex : Str → Bool) : List (Bool × Str × Str) :=
  (listSessions lines).map (fun r =>
    (ex (r.path.getD []), pyReplace (r.branch.getD []) claudeMarker, r.path.getD []))

/-!
## RemoteSyncPolicy (`cli.py` lines 15-107)

Every subprocess outcome the two functions branch on is a field of
`SyncEnv`: whether `git switch` to the source branch succeeds (`check=True`,
so failure propagates as `CalledProcessError` — fatal), whether `git remote`
succeeds and what it lists, whether the source branch has a configured
upstream, and whether `git fetch` / `git pull --ff-only` succeed (both run
with `check=False`).
-/

structure SyncEnv where
  switchOk : Bool
  remoteListOk : Bool
  remotes : List Str
  hasUpstream : Bool
  fetchOk : Bool
  pullOk : Bool
deriving DecidableEq, Repr

/-- `get_remote_info` (`cli.py` lines 15-61): `(none, false)` when `git
remote` fails or lists nothing; otherwise the remote named `origin` if
present, else the first listed remote, together with the upstream check. -/
def get_remote_info (e : SyncEnv) : Option Str × Bool :=
  if e.remoteListOk = false ∨ e.remotes = [] then (none, false)
  else
    (some (if "origin".data ∈ e.remotes then "origin".data else e.remotes.headD []),
      e.hasUpstream)

/-- Outcome of `sync_with_remote`: `fatal` is the propagated
`CalledProcessError` from the branch switch; `ok b` is a normal return,
with `b` recording whether the fast-forward-only pull was attempted. -/
inductive SyncResult
  | fatal
  | ok (pullAttempted : Bool)
deriving DecidableEq, Repr

/-- `sync_with_remote` (`cli.py` lines 64-107): switch (fatal on failure),
then return on no remote, return on fetch failure, and attempt the
fast-forward-only pull only when an upstream is configured — the pull's own
outcome only selects a warning message, never the result. -/
def sync_with_remote (e : SyncEnv) : SyncResult :=
  if e.switchOk = false then .fatal
  else
    match get_remote_info e with
    | (none, _) => .ok false
    | (some _, hasUp) =>
      if e.fetchOk = false then .ok false
      else if hasUp then .ok true
      else .ok false

/-!
## new (`cli.py` lines 132-263)

State touched by `new` after a successful remote sync: the `.gitignore`
content (read by the guard), the set of local branch names, and the set of
existing directories.  The creation steps are: refuse with exit 1 when the
gitignore guard fails (before anything is created); create the branch from
the source branch only when `git show-ref --verify` says it does not exist;
create the worktree only when no directory exists at the computed path.
`RemoteSyncPolicy` is modelled separately above; branch contents (which
commit a branch points at) are outside this model, so the source branch
does not appear in the state.
-/

structure NewState where
  gitignore : Option Str
  branches : List Str
  dirs : List Str
deriving DecidableEq, Repr

/-- The four exact lines accepted by the guard (`cli.py` lines 121-126). -/
def gitignoreAccepted : List Str :=
  [".claude-wt/worktrees".data, ".claude-wt/worktrees/".data,
    ".claude-wt/*".data, ".claude-wt/**".data]

/-- `check_gitignore` (`cli.py` lines 110-129): `False` when `.gitignore`
does not exist; otherwise split on newlines, strip each line, and accept
exactly when some stripped line is one of the four literals. -/
def check_gitignore (g : Option Str) : Bool :=
  match g with
  | none => false
  | some content =>
    ((splitNl content).map pyStrip).any (fun l => decide (l ∈ gitignoreAccepted))

/-- `new` (`cli.py` lines 161-237), from the gitignore guard through
worktree creation: returns the final state and, unless the guard refused
(`none`, exit 1 before any branch or worktree is created), the branch name
and worktree path handed to the agent launch.  `suffix = name or timestamp`
(`cli.py` line 196) with `now` the generated timestamp token. -/
def newCmd (root : Str) (s : NewState) (name now : Str) : NewState × Option (Str × Str) :=
  if check_gitignore s.gitignore = false then (s, none)
  else
    let suffix := if name = [] then now else name
    let branchName := toBranchName suffix
    let s1 := if branchName ∈ s.branches then s
      else { s with branches := s.branches ++ [branchName] }
    let wtPath := wtPathFor root branchName
    let s2 := if wtPath ∈ s1.dirs then s1 else { s1 with dirs := s1.dirs ++ [wtPath] }
    (s2, some (branchName, wtPath))

/-!
## clean (`cli.py` lines 337-520)

State: the porcelain registry snapshot (as lines), the local branch names,
and the existing directories.  Effects of the VCS operations follow their
documented behaviour: `git worktree remove --force p` deletes the directory
`p`, and `git branch -D b` deletes branch `b` (a failed deletion is caught
per branch and only prints a message).  The trace records every git
operation the command issues, in order.
-/

inductive GitOp
  | revParseRoot
  | worktreeList
  | worktreeRemove (path : Str)
  | branchList
  | branchDelete (name : Str)
deriving DecidableEq, Repr

structure RepoState where
  registry : List Str
  branches : List Str
  dirs : List Str
deriving DecidableEq, Repr

/-- `clean` (`cli.py` lines 337-520): exit code, trace of issued git
operations, and resulting state.  The selector check (lines 352-363) runs
before any subprocess call.  The specific-branch arm (lines 375-406)
removes the worktree only if its directory exists, then force-deletes the
branch.  The `--all` arm (lines 407-513) removes every worktree whose
parsed branch field starts with `"claude-wt-"`, then deletes every branch
matching `git branch --list "claude-wt-*"`. -/
def cleanCmd (root : Str) (bn : Str) (all : Bool) (s : RepoState) :
    Nat × List GitOp × RepoState :=
  if bn = [] ∧ all = false then (1, [], s)
  else if bn ≠ [] ∧ all = true then (1, [], s)
  else if bn ≠ [] then
    let full := toBranchName bn
    let wtPath := wtPathFor root full
    let ops1 : List GitOp := if wtPath ∈ s.dirs then [GitOp.worktreeRemove wtPath] else []
    let dirs' := s.dirs.filter (fun d => !(d == wtPath))
    (0, [GitOp.revParseRoot] ++ ops1 ++ [GitOp.branchDelete full],
      { s with dirs := dirs', branches := s.branches.filter (fun b => !(b == full)) })
  else
    let recs := parseWorktrees s.registry
    let paths := (recs.filter (fun r => claudeMarker.isPrefixOf (r.branch.getD []))).map
      (fun r => r.path.getD [])
    let bs := s.branches.filter (fun b => claudeMarker.isPrefixOf b)
    (0, [GitOp.revParseRoot, GitOp.worktreeList] ++ paths.map GitOp.worktreeRemove ++
        [GitOp.branchList] ++ bs.map GitOp.branchDelete,
      { s with dirs := s.dirs.filter (fun d => decide (d ∉ paths)),
               branches := s.branches.filter (fun b => !(claudeMarker.isPrefixOf b)) })

/-!
## Concrete inputs used by the closed evaluation theorems and witnesses
-/

/-- A porcelain registry as git actually prints it for one session worktree:
the branch attribute carries the full ref path `refs/heads/...`. -/
def c1Lines : List Str :=
  ["worktree /repo/.claude-wt/worktrees/claude-wt-foo".data,
    "HEAD 0123456789abcdef".data,
    "branch refs/heads/claude-wt-foo".data,
    "".data]

/-- Porcelain registry of a repository with the main checkout and the two
session worktrees `claude-wt-A`, `claude-wt-B` (git emits `refs/heads/...`
branch attributes). -/
def c5Registry : List Str :=
  ["worktree /repo".data, "HEAD 1111111111111111".data, "branch refs/heads/main".data,
    "".data,
    "worktree /repo/.claude-wt/worktrees/claude-wt-A".data, "HEAD 2222222222222222".data,
    "branch refs/heads/claude-wt-A".data, "".data,
    "worktree /repo/.claude-wt/worktrees/claude-wt-B".data, "HEAD 3333333333333333".data,
    "branch refs/heads/claude-wt-B".data, "".data]

/-- Repository with sessions `A`, `B` (branch + worktree directory) and the
orphan branch `claude-wt-C` (branch exists, no worktree). -/
def c5State : RepoState :=
  ⟨c5Registry,
    ["main".data, "claude-wt-A".data, "claude-wt-B".data, "claude-wt-C".data],
    ["/repo".data, "/repo/.claude-wt/worktrees/claude-wt-A".data,
      "/repo/.claude-wt/worktrees/claude-wt-B".data]⟩

/-- A single-record registry with no trailing blank line. -/
def oneRecordLines : List Str :=
  ["worktree /repo/.claude-wt/worktrees/claude-wt-bar".data,
    "HEAD 4444444444444444".data,
    "branch refs/heads/claude-wt-bar".data]

/-- A two-line registry text whose branch attribute happens to hold a bare
branch name, so the lookup of `resume` can match it. -/
def c6Lines : List Str :=
  ["worktree /w1".data, "branch claude-wt-bar".data]

/-- A state whose `.gitignore` contains an accepted line. -/
def okNewState : NewState :=
  ⟨some "node_modules\n.claude-wt/worktrees\n*.log".data, ["main".data], ["/repo".data]⟩

/-- A state whose `.gitignore` holds only patterns the guard rejects, even
though they would in fact exclude the directory. -/
def badNewState : NewState :=
  ⟨some ".claude-wt\n*".data, ["main".data], ["/repo".data]⟩

/-!
## Order lemmas for the sort comparison
-/

theorem strLe_total (a b : Str) : strLe a b = true ∨ strLe b a = true := by
  induction a generalizing b with
  | nil => left; simp [strLe]
  | cons x as ih =>
    cases b with
    | nil => right; simp [strLe]
    | cons y bs =>
      rcases lt_trichotomy x y with h | h | h
      · left; simp [strLe, h]
      · subst h
        rcases ih bs with h' | h'
        · left; simp [strLe, h']
        · right; simp [strLe, h']
      · right; simp [strLe, h]

theorem strLe_trans (a b c : Str) (h₁ : strLe a b = true) (h₂ : strLe b c = true) :
    strLe a c = true := by
  induction a generalizing b c with
  | nil => simp [strLe]
  | cons x as ih =>
    cases b with
    | nil => simp [strLe] at h₁
    | cons y bs =>
      cases c with
      | nil => simp [strLe] at h₂
      | cons z cs =>
        by_cases hxy : x < y
        · by_cases hyz : y < z
          · simp [strLe, lt_trans hxy hyz]
          · by_cases hyz' : y = z
            · subst hyz'; simp [strLe, hxy]
            · simp [strLe, hyz, hyz'] at h₂
        · by_cases hxy' : x = y
          · subst hxy'
            have h₁' : strLe as bs = true := by
              simpa [strLe, lt_irrefl] using h₁
            by_cases hyz : x < z
            · simp [strLe, hyz]
            · by_cases hyz' : x = z
              · subst hyz'
                have h₂' : strLe bs cs = true := by
                  simpa [strLe, lt_irrefl] using h₂
                simp [strLe, lt_irrefl, ih bs cs h₁' h₂']
              · simp [strLe, hyz, hyz'] at h₂
          · simp [strLe, hxy, hxy'] at h₁

instance : IsTotal WtRecord sessionRel :=
  ⟨fun a b => strLe_total (a.branch.getD []) (b.branch.getD [])⟩

instance : IsTrans WtRecord sessionRel :=
  ⟨fun a b c => strLe_trans (a.branch.getD []) (b.branch.getD []) (c.branch.getD [])⟩

/-!
## Parser counting (claim C3 machinery)
-/

theorem parseLines_length (lines : List Str) :
    ∀ (cur : WtRecord),
    (cur.branch.isSome = true → cur.path.isSome = true) →
    (cur.path = none → goodStart lines = true) →
    (parseLines lines cur).length =
      (if cur.isNonempty then 1 else 0) +
        lines.countP (fun l => "worktree ".data.isPrefixOf l) := by
  induction lines with
  | nil =>
    intro cur _ _
    simp only [parseLines, List.countP_nil]
    split <;> simp
  | cons line rest ih =>
    intro cur h1 h2
    by_cases hw : "worktree ".data.isPrefixOf line = true
    · rw [parseLines, if_pos hw, List.length_append,
        ih ⟨some (line.drop 9), none⟩ (by simp) (by simp), List.countP_cons]
      have hnew : (WtRecord.mk (some (line.drop 9)) none).isNonempty = true := by
        simp [WtRecord.isNonempty]
      by_cases hc : cur.isNonempty = true <;> simp [hc, hw, hnew] <;> omega
    · by_cases hb : "branch ".data.isPrefixOf line = true
      · have hp : cur.path.isSome = true := by
          cases hcp : cur.path with
          | some v => simp
          | none =>
            have hg := h2 hcp
            rw [goodStart, if_neg hw, if_pos hb] at hg
            exact absurd hg (by simp)
        rw [parseLines, if_neg hw, if_pos hb,
          ih { cur with branch := some (line.drop 7) } (fun _ => hp)
            (fun hc => absurd hp (by rw [show cur.path = none from hc]; simp)),
          List.countP_cons]
        have hw' : "worktree ".data.isPrefixOf line = false := by
          simp only [Bool.not_eq_true] at hw
          exact hw
        simp [hw', hp, WtRecord.isNonempty]
      · rw [parseLines, if_neg hw, if_neg hb,
          ih cur h1 (fun hc => by
            have hg := h2 hc
            rwa [goodStart, if_neg hw, if_neg hb] at hg), List.countP_cons]
        have hw' : "worktree ".data.isPrefixOf line = false := by
          simp only [Bool.not_eq_true] at hw
          exact hw
        simp [hw']

/-- Every record the parser flushes from a well-started registry has a path
whenever it has a branch (a branch attribute is only ever attached to a
record opened by a `worktree` line). -/
theorem parseLines_branch_path (lines : List Str) :
    ∀ (cur : WtRecord),
    (cur.branch.isSome = true → cur.path.isSome = true) →
    (cur.path = none → goodStart lines = true) →
    ∀ r ∈ parseLines lines cur, r.branch.isSome = true → r.path.isSome = true := by
  induction lines with
  | nil =>
    intro cur h1 _ r hr
    rw [parseLines] at hr
    split at hr
    · rw [List.mem_singleton] at hr
      subst hr
      exact h1
    · exact absurd hr (List.not_mem_nil r)
  | cons line rest ih =>
    intro cur h1 h2 r hr
    by_cases hw : "worktree ".data.isPrefixOf line = true
    · rw [parseLines, if_pos hw] at hr
      rcases List.mem_append.mp hr with h | h
      · split at h
        · rw [List.mem_singleton] at h
          subst h
          exact h1
        · exact absurd h (List.not_mem_nil r)
      · exact ih ⟨some (line.drop 9), none⟩ (by simp) (by simp) r h
    · by_cases hb : "branch ".data.isPrefixOf line = true
      · have hp : cur.path.isSome = true := by
          cases hcp : cur.path with
          | some v => simp
          | none =>
            have hg := h2 hcp
            rw [goodStart, if_neg hw, if_pos hb] at hg
            exact absurd hg (by simp)
        rw [parseLines, if_neg hw, if_pos hb] at hr
        exact ih { cur with branch := some (line.drop 7) } (fun _ => hp)
          (fun hc => absurd hp (by rw [show cur.path = none from hc]; simp)) r hr
      · rw [parseLines, if_neg hw, if_neg hb] at hr
        exact ih cur h1 (fun hc => by
          have hg := h2 hc
          rwa [goodStart, if_neg hw, if_neg hb] at hg) r hr

/-- The scan-with-break of `resume` finds exactly the first record of the
flush-based parse whose branch field equals `full`. -/
theorem resumeFindAux_eq_find (full : Str) (lines : List Str) :
    ∀ cur, resumeFindAux full lines cur =
      (parseLines lines cur).find? (fun r => r.branch == some full) := by
  induction lines with
  | nil =>
    intro cur
    rw [resumeFindAux, parseLines]
    by_cases hc : cur.isNonempty = true ∧ cur.branch = some full
    · rw [if_pos hc, if_pos hc.1]
      simp [List.find?, hc.2]
    · rw [if_neg hc]
      by_cases hn : cur.isNonempty = true
      · rw [if_pos hn]
        have hp : (cur.branch == some full) = false := by
          cases hcb : cur.branch == some full
          · rfl
          · exact absurd ⟨hn, by simpa using hcb⟩ hc
        simp [List.find?, hp]
      · rw [if_neg hn]
        simp [List.find?]
  | cons line rest ih =>
    intro cur
    by_cases hw : "worktree ".data.isPrefixOf line = true
    · rw [resumeFindAux, parseLines, if_pos hw, if_pos hw]
      by_cases hc : cur.isNonempty = true ∧ cur.branch = some full
      · rw [if_pos hc, if_pos hc.1]
        simp [List.find?, hc.2]
      · rw [if_neg hc, ih ⟨some (line.drop 9), none⟩]
        by_cases hn : cur.isNonempty = true
        · rw [if_pos hn]
          have hp : (cur.branch == some full) = false := by
            cases hcb : cur.branch == some full
            · rfl
            · exact absurd ⟨hn, by simpa using hcb⟩ hc
          simp [List.find?, hp]
        · rw [if_neg hn]
          simp
    · by_cases hb : "branch ".data.isPrefixOf line = true
      · rw [resumeFindAux, parseLines, if_neg hw, if_pos hb, if_neg hw, if_pos hb]
        exact ih { cur with branch := some (line.drop 7) }
      · rw [resumeFindAux, parseLines, if_neg hw, if_neg hb, if_neg hw, if_neg hb]
        exact ih cur

/-- `resume`'s lookup, re-expressed through the record-level parse. -/
theorem resumeCmd_eq_find (lines : List Str) (ident : Str) (ex : Str → Bool) :
    resumeCmd lines ident ex =
      match (parseWorktrees lines).find? (fun r => r.branch == some (toBranchName ident)) with
      | none => none
      | some r =>
        match r.path with
        | none => none
        | some p => if ex p then some p else none := by
  unfold resumeCmd parseWorktrees
  rw [resumeFindAux_eq_find]

/-- A list whose `countP` for `p` is at most one holds at most one value
satisfying `p`. -/
theorem countP_le_one_eq {α : Type} (l : List α) (p : α → Bool) (h : l.countP p ≤ 1)
    {a b : α} (ha : a ∈ l) (hpa : p a = true) (hb : b ∈ l) (hpb : p b = true) : a = b := by
  have ha' : a ∈ l.filter p := List.mem_filter.mpr ⟨ha, hpa⟩
  have hb' : b ∈ l.filter p := List.mem_filter.mpr ⟨hb, hpb⟩
  rw [List.countP_eq_length_filter] at h
  rcases hf : l.filter p with _ | ⟨x, _ | ⟨y, t⟩⟩
  · rw [hf] at ha'
    exact absurd ha' (List.not_mem_nil a)
  · rw [hf] at ha' hb'
    rw [List.mem_singleton] at ha' hb'
    rw [ha', hb']
  · rw [hf] at h
    simp at h

/-- C3: The registry parser flushes every record exactly once, including the
final one: for every well-started registry text (no branch-attribute line
before the first path line, as in all porcelain output), the number of
parsed records equals the number of path-introducing lines, however the
input ends — in particular a single record with no trailing blank line
parses to exactly one record. -/
theorem claim3_parser_flushes_final_record (lines : List Str)
    (hg : goodStart lines = true) :
    (parseWorktrees lines).length =
      lines.countP (fun l => "worktree ".data.isPrefixOf l) := by
  have h := parseLines_length lines ⟨none, none⟩ (by simp) (fun _ => hg)
  simpa [parseWorktrees, WtRecord.isNonempty] using h

theorem claim3_witness :
    (parseWorktrees oneRecordLines).length = 1 ∧
    oneRecordLines.countP (fun l => "worktree ".data.isPrefixOf l) = 1 :=
  ⟨by
    rw [claim3_parser_flushes_final_record oneRecordLines (by decide)]
    decide,
  by decide⟩

/-- C6: `resume(I)` fails (exit 1, no agent launched) exactly when either no
registry record has branch field `"claude-wt-" ++ I`, or such a record
exists but its recorded path does not currently exist on disk.  The two
hypotheses hold of every real registry: porcelain output is well-started,
and the VCS keeps at most one worktree per branch (spec §3). -/
theorem claim6_resume_notfound_iff (lines : List Str) (ident : Str) (ex : Str → Bool)
    (hg : goodStart lines = true)
    (huniq : (parseWorktrees lines).countP
      (fun r => r.branch == some (toBranchName ident)) ≤ 1) :
    (resumeCmd lines ident ex = none ↔
      (∀ r ∈ parseWorktrees lines, r.branch ≠ some (toBranchName ident)) ∨
      (∃ r ∈ parseWorktrees lines, r.branch = some (toBranchName ident) ∧
        ∃ p, r.path = some p ∧ ex p = false)) := by
  rcases hfind : (parseWorktrees lines).find?
      (fun r => r.branch == some (toBranchName ident)) with _ | r
  · have hall := List.find?_eq_none.mp hfind
    have hnone : resumeCmd lines ident ex = none := by
      rw [resumeCmd_eq_find, hfind]
    refine iff_of_true hnone (Or.inl ?_)
    intro r hr hbr
    exact hall r hr (by simp [hbr])
  · have hpr := List.find?_some hfind
    have hmem : r ∈ parseWorktrees lines := List.mem_of_find?_eq_some hfind
    have hbr : r.branch = some (toBranchName ident) := by simpa using hpr
    have hpath : r.path.isSome = true :=
      parseLines_branch_path lines ⟨none, none⟩ (by simp) (fun _ => hg) r hmem
        (by simp [hbr])
    obtain ⟨p, hp⟩ := Option.isSome_iff_exists.mp hpath
    by_cases he : ex p = true
    · have hsome : resumeCmd lines ident ex = some p := by
        rw [resumeCmd_eq_find, hfind]
        simp [hp, he]
      rw [hsome]
      refine iff_of_false (by simp) ?_
      rintro (hleft | ⟨r', hr', hbr', p', hp', hex'⟩)
      · exact hleft r hmem hbr
      · have heq : r' = r := countP_le_one_eq _ _ huniq hr' (by simp [hbr']) hmem
          (by simp [hbr])
        subst heq
        rw [hp] at hp'
        injection hp' with hpp
        rw [← hpp] at hex'
        rw [he] at hex'
        exact absurd hex' (by simp)
    · have hnone : resumeCmd lines ident ex = none := by
        rw [resumeCmd_eq_find, hfind]
        simp [hp, he]
      refine iff_of_true hnone (Or.inr ?_)
      exact ⟨r, hmem, hbr, p, hp, by simpa using he⟩

theorem claim6_witness :
    resumeCmd c6Lines "bar".data (fun _ => false) = none ↔
      (∀ r ∈ parseWorktrees c6Lines, r.branch ≠ some (toBranchName "bar".data)) ∨
      (∃ r ∈ parseWorktrees c6Lines, r.branch = some (toBranchName "bar".data) ∧
        ∃ p, r.path = some p ∧ (fun _ : Str => false) p = false) :=
  claim6_resume_notfound_iff c6Lines "bar".data (fun _ => false) (by decide) (by decide)

/-- C1 (evaluation at the failing input): on the registry text git actually
prints for the session `foo`, the parser keeps the full ref path
`refs/heads/claude-wt-foo` as the branch field — only the 7-character
`"branch "` marker is removed — so `resume foo` finds no record even though
the worktree path exists, and the bare-prefix filter of `list` keeps no
record. -/
theorem claim1_branch_field_keeps_ref_path :
    parseWorktrees c1Lines =
      [⟨some "/repo/.claude-wt/worktrees/claude-wt-foo".data,
        some "refs/heads/claude-wt-foo".data⟩] ∧
    resumeCmd c1Lines "foo".data (fun _ => true) = none ∧
    listSessions c1Lines = [] ∧
    goodStart c1Lines = true := by
  decide

/-- C5 (evaluation at the failing input): `clean --all` on a repository with
sessions `A`, `B` and the orphan branch `claude-wt-C` deletes all three
branches through the bare-name `git branch --list claude-wt-*` enumeration,
but removes no worktree at all: every registry branch field carries
`refs/heads/`, so the `"claude-wt-"` filter over parsed records matches
nothing and the worktree directories survive. -/
theorem claim5_clean_all_leaves_worktrees :
    (cleanCmd "/repo".data [] true c5State).1 = 0 ∧
    (cleanCmd "/repo".data [] true c5State).2.2.dirs = c5State.dirs ∧
    (cleanCmd "/repo".data [] true c5State).2.2.branches = ["main".data] ∧
    (cleanCmd "/repo".data [] true c5State).2.1 =
      [GitOp.revParseRoot, GitOp.worktreeList, GitOp.branchList,
        GitOp.branchDelete "claude-wt-A".data, GitOp.branchDelete "claude-wt-B".data,
        GitOp.branchDelete "claude-wt-C".data] := by
  decide

/-- C8: `clean` invoked with both a specific identifier and `--all`, or with
neither, exits with code 1, issues no git operation at all (empty trace),
and leaves the repository state untouched. -/
theorem claim8_clean_selector_usage_error (root bn : Str) (all : Bool) (s : RepoState)
    (h : (bn = [] ∧ all = false) ∨ (bn ≠ [] ∧ all = true)) :
    cleanCmd root bn all s = (1, [], s) := by
  rcases h with ⟨h1, h2⟩ | ⟨h1, h2⟩
  · simp only [cleanCmd]
    rw [if_pos ⟨h1, h2⟩]
  · simp only [cleanCmd]
    rw [if_neg (fun hc => h1 hc.1), if_pos ⟨h1, h2⟩]

theorem claim8_witness :
    cleanCmd "/repo".data [] false c5State = (1, [], c5State) ∧
    cleanCmd "/repo".data "x".data true c5State = (1, [], c5State) :=
  ⟨claim8_clean_selector_usage_error "/repo".data [] false c5State
      (Or.inl ⟨rfl, rfl⟩),
    claim8_clean_selector_usage_error "/repo".data "x".data true c5State
      (Or.inr ⟨by decide, rfl⟩)⟩

/-- C4: `sync_with_remote` classifies failures as the spec requires: with no
remotes it returns normally; with a remote present but fetch failing it
returns normally and attempts no pull; the fast-forward-only pull is
attempted exactly when the switch, remote lookup and fetch succeeded and the
source branch has an upstream; the pull's own outcome never changes the
result; and the only fatal outcome is a failed switch to the source
branch. -/
theorem claim4_sync_failure_classification (e : SyncEnv) :
    (e.switchOk = true → e.remotes = [] → sync_with_remote e = SyncResult.ok false) ∧
    (e.switchOk = true → e.remoteListOk = true → e.remotes ≠ [] → e.fetchOk = false →
      sync_with_remote e = SyncResult.ok false) ∧
    (sync_with_remote e = SyncResult.ok true ↔
      e.switchOk = true ∧ e.remoteListOk = true ∧ e.remotes ≠ [] ∧
        e.fetchOk = true ∧ e.hasUpstream = true) ∧
    (sync_with_remote e = SyncResult.fatal ↔ e.switchOk = false) ∧
    (∀ b, sync_with_remote { e with pullOk := b } = sync_with_remote e) := by
  obtain ⟨sw, rok, rem, up, fok, pok⟩ := e
  cases sw <;> cases rok <;> cases up <;> cases fok <;> cases rem <;>
    simp [sync_with_remote, get_remote_info]

theorem claim4_witness :
    sync_with_remote ⟨true, true, [], true, true, true⟩ = SyncResult.ok false ∧
    sync_with_remote ⟨false, true, ["origin".data], true, true, true⟩ = SyncResult.fatal ∧
    sync_with_remote ⟨true, true, ["origin".data], true, false, true⟩ = SyncResult.ok false :=
  ⟨(claim4_sync_failure_classification ⟨true, true, [], true, true, true⟩).1 rfl rfl,
    (claim4_sync_failure_classification
      ⟨false, true, ["origin".data], true, true, true⟩).2.2.2.1.mpr rfl,
    (claim4_sync_failure_classification
      ⟨true, true, ["origin".data], true, false, true⟩).2.1 rfl rfl (by decide) rfl⟩


/-- C2: `new` is idempotent: running it again with the same identifier
returns the identical state and the identical (branch, path) pair; the
branch list is unchanged when the branch already exists (existence check
before creation) and the directory list is unchanged when the worktree path
already exists (existing path reused); the branch is never duplicated. -/
theorem claim2_create_idempotent (root : Str) (s : NewState) (name now : Str)
    (hg : check_gitignore s.gitignore = true) :
    newCmd root (newCmd root s name now).1 name now = newCmd root s name now ∧
    (newCmd root s name now).2 =
      some (toBranchName (if name = [] then now else name),
        wtPathFor root (toBranchName (if name = [] then now else name))) ∧
    (toBranchName (if name = [] then now else name) ∈ s.branches →
      (newCmd root s name now).1.branches = s.branches) ∧
    (wtPathFor root (toBranchName (if name = [] then now else name)) ∈ s.dirs →
      (newCmd root s name now).1.dirs = s.dirs) ∧
    (newCmd root s name now).1.branches.count
        (toBranchName (if name = [] then now else name)) =
      max 1 (s.branches.count (toBranchName (if name = [] then now else name))) := by
  have hcheck : ¬ check_gitignore s.gitignore = false := by simp [hg]
  by_cases hb : toBranchName (if name = [] then now else name) ∈ s.branches
  · by_cases hp : wtPathFor root (toBranchName (if name = [] then now else name)) ∈ s.dirs
    · have hcnt := List.count_pos_iff.mpr hb
      simp [newCmd, hcheck, hb, hp]
    · simp [newCmd, hcheck, hb, hp]
  · by_cases hp : wtPathFor root (toBranchName (if name = [] then now else name)) ∈ s.dirs
    · simp [newCmd, hcheck, hb, hp, List.count_eq_zero.mpr hb]
    · simp [newCmd, hcheck, hb, hp, List.count_eq_zero.mpr hb]

theorem claim2_witness :
    newCmd "/repo".data (newCmd "/repo".data okNewState [] "20250101-000000".data).1
        [] "20250101-000000".data =
      newCmd "/repo".data okNewState [] "20250101-000000".data :=
  (claim2_create_idempotent "/repo".data okNewState [] "20250101-000000".data
    (by decide)).1

/-- C10: the gitignore guard accepts exactly the four literal lines
`.claude-wt/worktrees`, `.claude-wt/worktrees/`, `.claude-wt/*`,
`.claude-wt/**` (each compared after stripping surrounding whitespace);
a missing `.gitignore` fails the guard; and a failed guard makes `new`
return exit 1 with the state untouched — no branch or worktree created. -/
theorem claim10_gitignore_guard (c : Str) (root : Str) (s : NewState) (name now : Str) :
    (check_gitignore (some c) = true ↔
      ∃ l ∈ splitNl c, pyStrip l = ".claude-wt/worktrees".data ∨
        pyStrip l = ".claude-wt/worktrees/".data ∨ pyStrip l = ".claude-wt/*".data ∨
        pyStrip l = ".claude-wt/**".data) ∧
    check_gitignore none = false ∧
    (check_gitignore s.gitignore = false → newCmd root s name now = (s, none)) := by
  refine ⟨?_, rfl, ?_⟩
  · simp only [check_gitignore, List.any_eq_true, List.mem_map, gitignoreAccepted,
      decide_eq_true_eq, List.mem_cons, List.mem_singleton, List.not_mem_nil, or_false]
    constructor
    · rintro ⟨l, ⟨l0, hl0, rfl⟩, hmem⟩
      exact ⟨l0, hl0, hmem⟩
    · rintro ⟨l0, hl0, hmem⟩
      exact ⟨pyStrip l0, ⟨l0, hl0, rfl⟩, hmem⟩
  · intro h
    simp [newCmd, h]

theorem claim10_witness :
    check_gitignore badNewState.gitignore = false ∧
    newCmd "/repo".data badNewState [] "20250101-000000".data = (badNewState, none) ∧
    check_gitignore okNewState.gitignore = true :=
  ⟨by decide,
    (claim10_gitignore_guard [] "/repo".data badNewState [] "20250101-000000".data).2.2
      (by decide),
    by decide⟩

/-- A list is a prefix of itself followed by anything. -/
theorem isPrefixOf_self_append (p x : Str) : p.isPrefixOf (p ++ x) = true := by
  induction p with
  | nil => simp [List.isPrefixOf]
  | cons a as ih => simp [List.isPrefixOf, ih]

/-- `replace` leaves a string with no occurrence of the pattern unchanged,
whatever the fuel. -/
theorem pyReplaceAux_no_occur (pat : Str) :
    ∀ (s : Str) (fuel : Nat), hasOccur pat s = false → pyReplaceAux pat fuel s = s := by
  intro s
  induction s with
  | nil =>
    intro fuel _
    cases fuel <;> rfl
  | cons c rest ih =>
    intro fuel h
    rw [hasOccur] at h
    simp only [Bool.or_eq_false_iff] at h
    cases fuel with
    | zero => rfl
    | succ f =>
      rw [pyReplaceAux, if_neg (by simp [h.1]), ih f h.2]

/-- `replace` with a nonempty pattern strips a leading occurrence and leaves
an occurrence-free remainder untouched. -/
theorem pyReplaceAux_strip (p0 : Char) (pt : Str) (ident : Str)
    (h : hasOccur (p0 :: pt) ident = false) (fuel : Nat) :
    pyReplaceAux (p0 :: pt) (fuel + 1) ((p0 :: pt) ++ ident) = ident := by
  have hpre : (p0 :: pt).isPrefixOf ((p0 :: pt) ++ ident) = true :=
    isPrefixOf_self_append _ _
  rw [List.cons_append] at hpre ⊢
  rw [pyReplaceAux, if_pos hpre,
    show (p0 :: pt).length - 1 = pt.length by simp, List.drop_left]
  exact pyReplaceAux_no_occur _ _ fuel h

/-- C9 (amended): branch-name construction round-trips through the
suffix recovery of `list` exactly for identifiers that do not contain the
substring `"claude-wt-"`; the recovery removes every occurrence of the
marker, not only the leading one. -/
theorem claim9_roundtrip_amended (ident : Str)
    (h : hasOccur claudeMarker ident = false) :
    pyReplace (toBranchName ident) claudeMarker = ident := by
  have hm : claudeMarker = 'c' :: "laude-wt-".data := by decide
  have hlen : (toBranchName ident).length = (9 + ident.length) + 1 := by
    rw [toBranchName, List.length_append]
    have h10 : claudeMarker.length = 10 := by decide
    omega
  rw [hm] at h
  unfold pyReplace
  rw [hlen, toBranchName, hm]
  exact pyReplaceAux_strip 'c' "laude-wt-".data ident h (9 + ident.length)

theorem claim9_witness :
    pyReplace (toBranchName "foo".data) claudeMarker = "foo".data :=
  claim9_roundtrip_amended "foo".data (by decide)

/-- C9 (counterexample): for the identifier `"claude-wt-x"`, which contains
the marker as a substring, the suffix recovered by `list` from the
constructed branch name is `"x"`, not the identifier — the claimed
round-trip fails. -/
theorem claim9_roundtrip_counterexample :
    pyReplace (toBranchName "claude-wt-x".data) claudeMarker ≠ "claude-wt-x".data ∧
    pyReplace (toBranchName "claude-wt-x".data) claudeMarker = "x".data := by
  decide

/-- C7: `list` shows exactly the parsed registry records whose branch field
starts with `"claude-wt-"` (a permutation of that filter), sorted by branch
field; records without a branch field (detached HEAD) never appear; and
every rendered row's status is the existence check applied to that row's
path. -/
theorem claim7_list_filter_sort_status (lines : List Str) (ex : Str → Bool) :
    List.Perm (listSessions lines)
      ((parseWorktrees lines).filter
        (fun r => claudeMarker.isPrefixOf (r.branch.getD []))) ∧
    List.Sorted sessionRel (listSessions lines) ∧
    (∀ r, r ∈ listSessions lines ↔
      r ∈ parseWorktrees lines ∧ claudeMarker.isPrefixOf (r.branch.getD []) = true) ∧
    (∀ r ∈ listSessions lines, r.branch ≠ none) ∧
    (∀ st sfx p, (st, sfx, p) ∈ listRows lines ex → st = ex p) := by
  have hperm : List.Perm (listSessions lines)
      ((parseWorktrees lines).filter
        (fun r => claudeMarker.isPrefixOf (r.branch.getD []))) :=
    List.perm_insertionSort sessionRel _
  refine ⟨hperm, ?_, ?_, ?_, ?_⟩
  · exact List.sorted_insertionSort sessionRel _
  · intro r
    rw [hperm.mem_iff, List.mem_filter]
  · intro r hr hbn
    have hmem := List.mem_filter.mp (hperm.mem_iff.mp hr)
    rw [hbn] at hmem
    have : claudeMarker.isPrefixOf ([] : Str) = false := by decide
    rw [Option.getD_none, this] at hmem
    exact absurd hmem.2 (by simp)
  · intro st sfx p hrow
    obtain ⟨r, hr, heq⟩ := List.mem_map.mp hrow
    have h1 : ex (r.path.getD []) = st := congrArg Prod.fst heq
    have h3 : r.path.getD [] = p := congrArg (fun x => x.2.2) heq
    rw [← h1, h3]

theorem claim7_witness :
    (⟨some "/w1".data, some "claude-wt-bar".data⟩ : WtRecord) ∈ listSessions c6Lines ∧
    List.Sorted sessionRel (listSessions c6Lines) :=
  ⟨((claim7_list_filter_sort_status c6Lines (fun _ => true)).2.2.1
      ⟨some "/w1".data, some "claude-wt-bar".data⟩).mpr (by decide),
    (claim7_list_filter_sort_status c6Lines (fun _ => true)).2.1⟩
